import Mathlib

/-!
Verification of the taxi-trip statistics pipeline.

The numeric domain of the pipeline (Python floats) is modelled by exact
rationals `ℚ`; the two statistics whose definition involves a square root
(`std_dev`, `skewness`) take values in `ℝ`.  Pandas missing values (`NaN`
produced by `dropna`-surviving computations, and Python `None`) are modelled
with `Option`.

Sources embedded here:
* `generate_stats_report.py` — `calculate_statistics` and
  `generate_markdown_report` (the statistics engine and the report renderer);
* `format_data.py` — `calculate_elapsed_time`;
the remaining scripts are I/O plumbing outside the claims.
-/

namespace TaxiProject

/-- A numeric column: the cell sequence, `Option.none` marking a missing value
(`NaN` in the CSV).  `calculate_statistics` first restricts a dataframe to its
numeric columns, so a table reaching the engine is a list of named numeric
columns. -/
abbrev Table : Type := List (String × List (Option ℚ))

/-- Ascending sort of a column, as pandas/numpy quantile and mode use. -/
def sortList (l : List ℚ) : List ℚ :=
  List.insertionSort (· ≤ ·) l

/-- Embeds `col_data.mean()`: arithmetic mean (`0` on the empty list, which the
engine never queries because empty columns are skipped). -/
def mean (l : List ℚ) : ℚ :=
  l.sum / l.length

/-- Embeds `col_data.quantile(p)` — pandas' default "linear" interpolation
method: on the ascending sort `s` of the data, the virtual rank is
`h = p*(n-1)`; the result interpolates between `s[⌊h⌋]` and the next sorted
entry (clamped to the last index). -/
def quantile (l : List ℚ) (p : ℚ) : ℚ :=
  let s := sortList l
  let n := s.length
  let h := p * ((n : ℚ) - 1)
  let i := (⌊h⌋).toNat
  let a := s.getD i 0
  let b := s.getD (min (i + 1) (n - 1)) 0
  a + (h - (i : ℚ)) * (b - a)

/-- Embeds `col_data.median()`: pandas' median is exactly the linear
0.5-quantile (mean of the two middle order statistics for even length). -/
def median (l : List ℚ) : ℚ :=
  quantile l (1/2)

/-- The spec's description of the percentile method, stated in its own words
("for a sorted sequence of length n, the rank position is `p*(n-1)`, value
interpolated between the two bracketing sorted entries"): the bracketing
entries sit at the floor and at the ceiling of the rank position.  It is kept
separate from `quantile` (the pandas algorithm, which clamps `⌊h⌋ + 1`
instead of taking `⌈h⌉`) so the two can be proved to agree. -/
def percentileSpec (l : List ℚ) (p : ℚ) : ℚ :=
  let s := sortList l
  let h := p * ((s.length : ℚ) - 1)
  let lo := s.getD ((⌊h⌋).toNat) 0
  let hi := s.getD ((⌈h⌉).toNat) 0
  lo + (h - (⌊h⌋ : ℚ)) * (hi - lo)

/-- Embeds `col_data.min()`. -/
def minOf (l : List ℚ) : ℚ :=
  (l.min?).getD 0

/-- Embeds `col_data.max()`. -/
def maxOf (l : List ℚ) : ℚ :=
  (l.max?).getD 0

/-- Embeds `col_data.var()` — pandas' sample variance with `ddof = 1`
(denominator `n - 1`).  For `n ≤ 1` pandas yields `NaN`, modelled `none`. -/
def var? (l : List ℚ) : Option ℚ :=
  if l.length ≤ 1 then none
  else some (((l.map (fun x => (x - mean l) ^ 2)).sum) / ((l.length : ℚ) - 1))

/-- Embeds `col_data.std()`: the square root of the sample variance, `NaN`
(here `none`) exactly when the variance is. -/
noncomputable def stdDev? (l : List ℚ) : Option ℝ :=
  (var? l).map (fun v => Real.sqrt (v : ℝ))

/-- Second central moment with population normalisation (denominator `n`),
as used inside `scipy.stats.skew` and `scipy.stats.kurtosis`. -/
def m2 (l : List ℚ) : ℚ :=
  ((l.map (fun x => (x - mean l) ^ 2)).sum) / l.length

/-- Third central moment with population normalisation. -/
def m3 (l : List ℚ) : ℚ :=
  ((l.map (fun x => (x - mean l) ^ 3)).sum) / l.length

/-- Fourth central moment with population normalisation. -/
def m4 (l : List ℚ) : ℚ :=
  ((l.map (fun x => (x - mean l) ^ 4)).sum) / l.length

/-- Embeds `scipy.stats.skew(col_data)` with its defaults (`bias=True`):
`m3 / m2 ** 1.5`, the biased Fisher-Pearson coefficient. -/
noncomputable def skew (l : List ℚ) : ℝ :=
  ((m3 l : ℚ) : ℝ) / (((m2 l : ℚ) : ℝ) ^ (1.5 : ℝ))

/-- Embeds `scipy.stats.kurtosis(col_data)` with its defaults
(`fisher=True`, `bias=True`): excess kurtosis `m4 / m2 ^ 2 - 3`, which is
rational. -/
def kurt (l : List ℚ) : ℚ :=
  m4 l / (m2 l) ^ 2 - 3

/-- Largest multiplicity attained by any value of the column (the frequency
that `Series.mode` maximises). -/
def maxCount (l : List ℚ) : ℕ :=
  ((l.map (fun x => l.count x)).max?).getD 0

/-- Embeds `col_data.mode()`: the distinct values of maximal multiplicity, in
ascending order, as the pandas mode series is sorted. -/
def modeSorted (l : List ℚ) : List ℚ :=
  sortList ((l.dedup).filter (fun x => l.count x = maxCount l))

/-- Embeds `col_data.mode().iloc[0] if not col_data.mode().empty else None`. -/
def mode? (l : List ℚ) : Option ℚ :=
  match modeSorted l with
  | [] => none
  | a :: _ => some a

/-- The per-column record built by the loop body of `calculate_statistics`;
field names follow the keys of the Python dictionary. -/
structure ColStats where
  mean : ℚ
  median : ℚ
  mode : Option ℚ
  range : ℚ
  variance : Option ℚ
  std_dev : Option ℝ
  iqr : ℚ
  min : ℚ
  max : ℚ
  q1 : ℚ
  q2 : ℚ
  q3 : ℚ
  p10 : ℚ
  p90 : ℚ
  skewness : ℝ
  kurtosis : ℚ

/-- The loop body of `calculate_statistics` applied to one cleaned
(null-free, non-empty) column. -/
noncomputable def mkColStats (col : List ℚ) : ColStats :=
  let q1 := quantile col (1/4)
  let q3 := quantile col (3/4)
  { mean := mean col
    median := median col
    mode := mode? col
    range := maxOf col - minOf col
    variance := var? col
    std_dev := stdDev? col
    iqr := q3 - q1
    min := minOf col
    max := maxOf col
    q1 := q1
    q2 := quantile col (1/2)
    q3 := q3
    p10 := quantile col (1/10)
    p90 := quantile col (9/10)
    skewness := skew col
    kurtosis := kurt col }

/-- Embeds `calculate_statistics`: for each (numeric) column, drop the nulls;
skip the column if nothing remains, otherwise record its statistics under the
column's name. -/
noncomputable def calculate_statistics (data : Table) : List (String × ColStats) :=
  data.filterMap (fun pr =>
    let col := pr.2.filterMap id
    if col = [] then none else some (pr.1, mkColStats col))

/-! ### Report renderer (`generate_markdown_report`) -/

/-- Decimal digits of `n` left-padded with zeros to `width` characters, as
Python's fixed-width numeric fields print. -/
def decDigits (n width : ℕ) : String :=
  let s := toString n
  String.mk (List.replicate (width - s.length) '0') ++ s

/-- Embeds the Python format `f"{value:.4f}"`: fixed-point with four decimal
digits.  Stated generically so the same algorithm applies to the rational and
the real-valued cells; ties round half-up rather than half-even, which agrees
with Python on every value whose fifth decimal is not an exact half. -/
def fixedFormat4 {α : Type} [LinearOrderedField α] [FloorRing α] (v : α) : String :=
  let scaled : ℤ := round (v * 10000)
  let sign := if scaled < 0 then "-" else ""
  let a := scaled.natAbs
  sign ++ toString (a / 10000) ++ "." ++ decDigits (a % 10000) 4

/-- Embeds the Python format `f"{value:.4e}"`: scientific notation with a
one-digit integer part, four decimal digits of mantissa, and a sign-carrying
exponent of at least two digits. -/
def sciFormat4 {α : Type} [LinearOrderedField α] [FloorRing α] (v : α) : String :=
  if v = 0 then "0.0000e+00"
  else
    let e : ℤ := Int.log 10 |v|
    let m4 : ℤ := round (|v| * (10 : α) ^ ((4 : ℤ) - e))
    let me : ℤ × ℤ := if 100000 ≤ m4 then (10000, e + 1) else (m4, e)
    let m := me.1.natAbs
    let sign := if v < 0 then "-" else ""
    sign ++ toString (m / 10000) ++ "." ++ decDigits (m % 10000) 4 ++ "e" ++
      (if me.2 < 0 then "-" else "+") ++ decDigits (me.2).natAbs 2

/-- Embeds the cell-formatting conditional of the renderer's row loop:
scientific notation when the absolute value is below `0.01` or above `1000`,
fixed-point otherwise. -/
def formatValue {α : Type} [LinearOrderedField α] [FloorRing α] (v : α) : String :=
  if |v| < 1/100 ∨ 1000 < |v| then sciFormat4 v else fixedFormat4 v

/-- A rendered table cell: a rational value, a real value (`std_dev`,
`skewness`), pandas `NaN` (printed `nan` by `%.4f`, since both comparisons
with `NaN` are false), or Python `None` (printed by `str`). -/
inductive Cell where
  | q (v : ℚ)
  | r (v : ℝ)
  | nan
  | none

/-- The string the row loop appends for one cell. -/
noncomputable def renderCell : Cell → String
  | Cell.q v => formatValue v
  | Cell.r v => formatValue v
  | Cell.nan => "nan"
  | Cell.none => "None"

/-- The dictionary access `stats_dict[col][stat]` of the row loop: the cell a
`ColStats` record holds under a statistic key. -/
noncomputable def cellOf (cs : ColStats) (stat : String) : Cell :=
  if stat = "mean" then Cell.q cs.mean
  else if stat = "median" then Cell.q cs.median
  else if stat = "mode" then
    match cs.mode with
    | Option.some v => Cell.q v
    | Option.none => Cell.none
  else if stat = "range" then Cell.q cs.range
  else if stat = "variance" then
    match cs.variance with
    | Option.some v => Cell.q v
    | Option.none => Cell.nan
  else if stat = "std_dev" then
    match cs.std_dev with
    | Option.some v => Cell.r v
    | Option.none => Cell.nan
  else if stat = "iqr" then Cell.q cs.iqr
  else if stat = "min" then Cell.q cs.min
  else if stat = "max" then Cell.q cs.max
  else if stat = "q1" then Cell.q cs.q1
  else if stat = "q2" then Cell.q cs.q2
  else if stat = "q3" then Cell.q cs.q3
  else if stat = "p10" then Cell.q cs.p10
  else if stat = "p90" then Cell.q cs.p90
  else if stat = "skewness" then Cell.r cs.skewness
  else if stat = "kurtosis" then Cell.q cs.kurtosis
  else Cell.none

/-- The `all_stats` list of the renderer paired with the `descriptions`
dictionary: the sixteen statistic keys in emission order, each with its fixed
description string. -/
def allStats : List (String × String) :=
  [("mean", "Average value"),
   ("median", "Middle value when ordered"),
   ("mode", "Most frequent value"),
   ("range", "Difference between max and min"),
   ("variance", "Average squared deviation from the mean"),
   ("std_dev", "Square root of variance (spread around mean)"),
   ("iqr", "Middle 50% spread (Q3 - Q1)"),
   ("min", "Smallest value"),
   ("max", "Largest value"),
   ("q1", "First quartile (25th percentile)"),
   ("q2", "Second quartile (50th percentile, median)"),
   ("q3", "Third quartile (75th percentile)"),
   ("p10", "10th percentile"),
   ("p90", "90th percentile"),
   ("skewness", "Measure of asymmetry (>0: right skew, <0: left skew)"),
   ("kurtosis", "Measure of 'tailedness' (>0: heavy tails, <0: light tails)")]

/-- Helper for `pyTitle`: the Boolean records whether the previous character
was alphabetic (Python: cased). -/
def pyTitleAux : Bool → List Char → List Char
  | _, [] => []
  | prev, c :: cs =>
    (if c.isAlpha then (if prev then c.toLower else c.toUpper) else c) ::
      pyTitleAux c.isAlpha cs

/-- Embeds Python's `str.title()` on the ASCII statistic names: the first
letter of every alphabetic run is upper-cased, the rest lower-cased. -/
def pyTitle (s : String) : String :=
  String.mk (pyTitleAux false s.data)

/-- Embeds `stat.replace('_', ' ').title()`, the row label of a statistic. -/
def statLabel (stat : String) : String :=
  pyTitle (String.mk (stat.data.map (fun c => if c = '_' then ' ' else c)))

/-- Embeds the skewness interpretation cascade of the renderer (first match
wins). -/
noncomputable def skewInterp (s : ℝ) : String :=
  if s > 0.5 then "strong positive skew (right-tailed)"
  else if s > 0.1 then "moderate positive skew"
  else if s < -0.5 then "strong negative skew (left-tailed)"
  else if s < -0.1 then "moderate negative skew"
  else "approximately symmetric"

/-- Embeds the kurtosis interpretation cascade of the renderer. -/
def kurtInterp (k : ℚ) : String :=
  if k > 1 then "very heavy tails (more outliers than normal)"
  else if k > 0.5 then "heavy tails"
  else if k < -1 then "very light tails (fewer outliers than normal)"
  else if k < -0.5 then "light tails"
  else "near normal tails"

/-- Embeds `generate_markdown_report` as the ordered list of strings the
function writes to the output file (the document is their concatenation);
`now` stands for the `datetime.now()` timestamp string. -/
noncomputable def generate_markdown_report
    (stats_dict : List (String × ColStats)) (now : String) : List String :=
  let columns := stats_dict.map Prod.fst
  let header :=
    "| Statistic | " ++ String.intercalate " | " columns ++ " | Description |\n"
  let separator :=
    "|-----------|" ++
      String.intercalate "|" (columns.map (fun _ => "-----------")) ++
      "|-------------|\n"
  let rows := allStats.map (fun st =>
    "| " ++ statLabel st.1 ++ " | " ++
      String.join (stats_dict.map
        (fun pr => renderCell (cellOf pr.2 st.1) ++ " | ")) ++
      st.2 ++ " |\n")
  let interps := (stats_dict.map (fun pr =>
    ["### " ++ pr.1 ++ "\n\n",
     "The distribution is " ++ skewInterp pr.2.skewness ++ " with " ++
       kurtInterp ((pr.2).kurtosis : ℚ) ++ ".\n\n"])).flatten
  ["# Descriptive Statistics Report\n\n",
   "*Generated on: " ++ now ++ "*\n\n",
   "## Summary\n\n",
   "This report contains descriptive statistics for the numerical columns in the dataset.\n\n",
   "Number of numerical columns analyzed: " ++ toString stats_dict.length ++ "\n\n",
   "## Descriptive Statistics\n\n",
   header, separator] ++ rows ++
  ["\n", "## Interpretations\n\n"] ++ interps

/-! ### Elapsed-time derivation (`format_data.py`) -/

/-- Splits a character sequence at each colon, the field structure of the
`%H:%M:%S` pattern. -/
def splitColons : List Char → List (List Char)
  | [] => [[]]
  | c :: cs =>
    if c = ':' then [] :: splitColons cs
    else
      match splitColons cs with
      | [] => [[c]]
      | r :: rs => (c :: r) :: rs

/-- The numeric value of a digit sequence. -/
def digitsToNat (cs : List Char) : ℕ :=
  cs.foldl (fun n c => 10 * n + (c.toNat - ('0').toNat)) 0

/-- One field of a `%H:%M:%S` pattern: one or two decimal digits
(`strptime` consumes at most two digits per field). -/
def parseField (cs : List Char) : Option ℕ :=
  if 1 ≤ cs.length ∧ cs.length ≤ 2 ∧ cs.all Char.isDigit then some (digitsToNat cs)
  else none

/-- Embeds `datetime.strptime(t, '%H:%M:%S')`, reduced to the second-of-day it
denotes: three colon-separated digit fields with the usual range checks. -/
def parseTime (s : String) : Option ℕ :=
  match splitColons s.data with
  | [h, m, sec] => do
    let hv ← parseField h
    let mv ← parseField m
    let sv ← parseField sec
    if hv ≤ 23 ∧ mv ≤ 59 ∧ sv ≤ 59 then some (hv * 3600 + mv * 60 + sv)
    else none
  | _ => none

/-- Embeds `calculate_elapsed_time`: parse both clock times; if the dropoff is
earlier than the pickup the trip crossed midnight and a day is added before
taking the difference in seconds.  `strptime` failures propagate as `none`
(the Python raises `ValueError`). -/
def calculate_elapsed_time (pickup_time dropoff_time : String) : Option ℤ :=
  match parseTime pickup_time, parseTime dropoff_time with
  | some p, some d =>
      some (if d < p then ((d : ℤ) + 86400) - (p : ℤ) else (d : ℤ) - (p : ℤ))
  | _, _ => none

/-! ### Order and sorting helper lemmas -/

lemma length_sortList (l : List ℚ) : (sortList l).length = l.length :=
  (List.perm_insertionSort _ l).length_eq

lemma sortList_sorted (l : List ℚ) : List.Sorted (· ≤ ·) (sortList l) :=
  List.sorted_insertionSort _ l

lemma mem_sortList {l : List ℚ} {x : ℚ} : x ∈ sortList l ↔ x ∈ l :=
  (List.perm_insertionSort _ l).mem_iff

lemma getD_mem : ∀ (l : List ℚ) (i : ℕ), i < l.length → ∀ d : ℚ, l.getD i d ∈ l
  | a :: t, 0, _, _ => List.mem_cons_self a t
  | a :: t, i + 1, h, d =>
      List.mem_cons_of_mem a (getD_mem t i (by simpa using h) d)

lemma sorted_getD_le : ∀ (s : List ℚ), List.Sorted (· ≤ ·) s →
    ∀ i j : ℕ, i ≤ j → j < s.length → ∀ d : ℚ, s.getD i d ≤ s.getD j d := by
  intro s
  induction s with
  | nil => intro _ i j _ hj d; simp at hj
  | cons a t ih =>
    intro hs i j hij hj d
    rw [List.sorted_cons] at hs
    cases i with
    | zero =>
      cases j with
      | zero => simp
      | succ j' =>
        have ht : t.getD j' d ∈ t := getD_mem t j' (by simpa using hj) d
        simpa using hs.1 _ ht
    | succ i' =>
      cases j with
      | zero => omega
      | succ j' =>
        simpa using ih hs.2 i' j' (by omega) (by simpa using hj) d

/-! ### Quantile helper lemmas -/

lemma quantile_eq (l : List ℚ) (p : ℚ) :
    quantile l p =
      (sortList l).getD ((⌊p * (((sortList l).length : ℚ) - 1)⌋).toNat) 0 +
        (p * (((sortList l).length : ℚ) - 1) -
            (((⌊p * (((sortList l).length : ℚ) - 1)⌋).toNat : ℕ) : ℚ)) *
          ((sortList l).getD
              (min ((⌊p * (((sortList l).length : ℚ) - 1)⌋).toNat + 1)
                ((sortList l).length - 1)) 0 -
            (sortList l).getD ((⌊p * (((sortList l).length : ℚ) - 1)⌋).toNat) 0) := rfl

lemma toNat_floor_cast {h : ℚ} (h0 : 0 ≤ h) : (((⌊h⌋).toNat : ℕ) : ℚ) = (⌊h⌋ : ℚ) := by
  have h1 : ((⌊h⌋).toNat : ℤ) = ⌊h⌋ := Int.toNat_of_nonneg (Int.floor_nonneg.mpr h0)
  exact_mod_cast congrArg (fun z : ℤ => (z : ℚ)) h1

lemma floorIdx_le {n : ℕ} (hn : 1 ≤ n) {p : ℚ} (_hp0 : 0 ≤ p) (hp1 : p ≤ 1) :
    (⌊p * ((n : ℚ) - 1)⌋).toNat ≤ n - 1 := by
  have hn' : (1 : ℚ) ≤ (n : ℚ) := by exact_mod_cast hn
  have h1 : p * ((n : ℚ) - 1) ≤ (n : ℚ) - 1 :=
    mul_le_of_le_one_left (by linarith) hp1
  have hfi : ⌊((n : ℚ) - 1)⌋ = (n : ℤ) - 1 := by
    rw [show ((n : ℚ) - 1) = (((n : ℤ) - 1 : ℤ) : ℚ) by push_cast; ring]
    exact Int.floor_intCast _
  have h2 : ⌊p * ((n : ℚ) - 1)⌋ ≤ (n : ℤ) - 1 := (Int.floor_le_floor h1).trans_eq hfi
  omega

lemma quantile_between (l : List ℚ) (hl : l ≠ []) {p : ℚ} (hp0 : 0 ≤ p) (hp1 : p ≤ 1) :
    (sortList l).getD ((⌊p * (((sortList l).length : ℚ) - 1)⌋).toNat) 0 ≤ quantile l p ∧
    quantile l p ≤ (sortList l).getD
      (min ((⌊p * (((sortList l).length : ℚ) - 1)⌋).toNat + 1) ((sortList l).length - 1)) 0 := by
  have hn1 : 1 ≤ (sortList l).length := by
    rw [length_sortList]; exact List.length_pos.mpr hl
  have hn' : (1 : ℚ) ≤ ((sortList l).length : ℚ) := by exact_mod_cast hn1
  have h0 : 0 ≤ p * (((sortList l).length : ℚ) - 1) := mul_nonneg hp0 (by linarith)
  have hcast := toNat_floor_cast h0
  have hg0 : 0 ≤ p * (((sortList l).length : ℚ) - 1) -
      (((⌊p * (((sortList l).length : ℚ) - 1)⌋).toNat : ℕ) : ℚ) := by
    rw [hcast]
    have h4 := Int.floor_le (p * (((sortList l).length : ℚ) - 1))
    linarith
  have hg1 : p * (((sortList l).length : ℚ) - 1) -
      (((⌊p * (((sortList l).length : ℚ) - 1)⌋).toNat : ℕ) : ℚ) < 1 := by
    rw [hcast]
    have h5 := Int.lt_floor_add_one (p * (((sortList l).length : ℚ) - 1))
    linarith
  have hin : (⌊p * (((sortList l).length : ℚ) - 1)⌋).toNat ≤ (sortList l).length - 1 := by
    have := floorIdx_le hn1 hp0 hp1
    rwa [length_sortList] at *
  have hab : (sortList l).getD ((⌊p * (((sortList l).length : ℚ) - 1)⌋).toNat) 0 ≤
      (sortList l).getD
        (min ((⌊p * (((sortList l).length : ℚ) - 1)⌋).toNat + 1) ((sortList l).length - 1)) 0 :=
    sorted_getD_le _ (sortList_sorted l) _ _ (by omega) (by omega) 0
  rw [quantile_eq]
  constructor
  · nlinarith [sub_nonneg.mpr hab]
  · nlinarith [sub_nonneg.mpr hab]

lemma minOf_le_of_mem {l : List ℚ} {x : ℚ} (hx : x ∈ l) : minOf l ≤ x := by
  cases hm : l.min? with
  | none =>
    rw [List.min?_eq_none_iff] at hm
    subst hm; simp at hx
  | some m =>
    have h := @List.le_min?_iff ℚ m _ _ (fun _ _ _ => le_min_iff) l hm m
    unfold minOf
    rw [hm]
    exact (h.mp (le_refl m)) x hx

lemma le_maxOf_of_mem {l : List ℚ} {x : ℚ} (hx : x ∈ l) : x ≤ maxOf l := by
  cases hm : l.max? with
  | none =>
    rw [List.max?_eq_none_iff] at hm
    subst hm; simp at hx
  | some m =>
    have h := @List.max?_le_iff ℚ m _ _ (fun _ _ _ => max_le_iff) l hm m
    unfold maxOf
    rw [hm]
    exact (h.mp (le_refl m)) x hx

lemma minOf_le_quantile (l : List ℚ) (hl : l ≠ []) {p : ℚ} (hp0 : 0 ≤ p) (hp1 : p ≤ 1) :
    minOf l ≤ quantile l p := by
  have hn1 : 1 ≤ (sortList l).length := by
    rw [length_sortList]; exact List.length_pos.mpr hl
  have hin : (⌊p * (((sortList l).length : ℚ) - 1)⌋).toNat ≤ (sortList l).length - 1 :=
    floorIdx_le hn1 hp0 hp1
  refine le_trans (minOf_le_of_mem ?_) (quantile_between l hl hp0 hp1).1
  exact mem_sortList.mp (getD_mem _ _ (by omega) 0)

lemma quantile_le_maxOf (l : List ℚ) (hl : l ≠ []) {p : ℚ} (hp0 : 0 ≤ p) (hp1 : p ≤ 1) :
    quantile l p ≤ maxOf l := by
  have hn1 : 1 ≤ (sortList l).length := by
    rw [length_sortList]; exact List.length_pos.mpr hl
  refine le_trans (quantile_between l hl hp0 hp1).2 (le_maxOf_of_mem ?_)
  exact mem_sortList.mp (getD_mem _ _ (by omega) 0)

lemma quantile_mono (l : List ℚ) (hl : l ≠ []) {p q : ℚ}
    (hp0 : 0 ≤ p) (hpq : p ≤ q) (hq1 : q ≤ 1) : quantile l p ≤ quantile l q := by
  have hq0 : 0 ≤ q := le_trans hp0 hpq
  have hp1 : p ≤ 1 := le_trans hpq hq1
  have hn1 : 1 ≤ (sortList l).length := by
    rw [length_sortList]; exact List.length_pos.mpr hl
  have hn' : (1 : ℚ) ≤ (((sortList l).length : ℕ) : ℚ) := by exact_mod_cast hn1
  rw [quantile_eq l p, quantile_eq l q]
  set s := sortList l with hs
  set n := s.length with hnn
  set h1 := p * ((n : ℚ) - 1) with hh1
  set h2 := q * ((n : ℚ) - 1) with hh2
  set i1 := (⌊h1⌋).toNat with hi1
  set i2 := (⌊h2⌋).toNat with hi2
  have hle : h1 ≤ h2 := mul_le_mul_of_nonneg_right hpq (by linarith)
  have h10 : 0 ≤ h1 := mul_nonneg hp0 (by linarith)
  have h20 : 0 ≤ h2 := mul_nonneg hq0 (by linarith)
  have hi12 : i1 ≤ i2 := by
    have := Int.floor_le_floor hle
    omega
  have hc1 : ((i1 : ℕ) : ℚ) = (⌊h1⌋ : ℚ) := toNat_floor_cast h10
  have hc2 : ((i2 : ℕ) : ℚ) = (⌊h2⌋ : ℚ) := toNat_floor_cast h20
  have hg10 : 0 ≤ h1 - (i1 : ℚ) := by
    rw [hc1]; have := Int.floor_le h1; linarith
  have hg11 : h1 - (i1 : ℚ) < 1 := by
    rw [hc1]; have := Int.lt_floor_add_one h1; linarith
  have hg20 : 0 ≤ h2 - (i2 : ℚ) := by
    rw [hc2]; have := Int.floor_le h2; linarith
  have hin1 : i1 ≤ n - 1 := floorIdx_le hn1 hp0 hp1
  have hin2 : i2 ≤ n - 1 := floorIdx_le hn1 hq0 hq1
  have hab1 : s.getD i1 0 ≤ s.getD (min (i1 + 1) (n - 1)) 0 :=
    sorted_getD_le s (sortList_sorted l) _ _ (by omega) (by omega) 0
  have hab2 : s.getD i2 0 ≤ s.getD (min (i2 + 1) (n - 1)) 0 :=
    sorted_getD_le s (sortList_sorted l) _ _ (by omega) (by omega) 0
  rcases eq_or_lt_of_le hi12 with heq | hlt
  · rw [heq] at hg10 hg11 hab1 ⊢
    have hgg : h1 - (i2 : ℚ) ≤ h2 - (i2 : ℚ) := by linarith
    exact add_le_add_left
      (mul_le_mul_of_nonneg_right hgg (sub_nonneg.mpr hab2)) _
  · have step1 : s.getD i1 0 + (h1 - (i1 : ℚ)) *
        (s.getD (min (i1 + 1) (n - 1)) 0 - s.getD i1 0) ≤
        s.getD (min (i1 + 1) (n - 1)) 0 := by
      nlinarith [sub_nonneg.mpr hab1]
    have step2 : s.getD (min (i1 + 1) (n - 1)) 0 ≤ s.getD i2 0 :=
      sorted_getD_le s (sortList_sorted l) _ _ (by omega) (by omega) 0
    have step3 : s.getD i2 0 ≤ s.getD i2 0 + (h2 - (i2 : ℚ)) *
        (s.getD (min (i2 + 1) (n - 1)) 0 - s.getD i2 0) := by
      nlinarith [sub_nonneg.mpr hab2]
    exact le_trans step1 (le_trans step2 step3)

lemma percentileSpec_eq (l : List ℚ) (p : ℚ) :
    percentileSpec l p =
      (sortList l).getD ((⌊p * (((sortList l).length : ℚ) - 1)⌋).toNat) 0 +
        (p * (((sortList l).length : ℚ) - 1) -
            ((⌊p * (((sortList l).length : ℚ) - 1)⌋ : ℤ) : ℚ)) *
          ((sortList l).getD ((⌈p * (((sortList l).length : ℚ) - 1)⌉).toNat) 0 -
            (sortList l).getD ((⌊p * (((sortList l).length : ℚ) - 1)⌋).toNat) 0) := rfl

lemma quantile_eq_percentileSpec (l : List ℚ) (hl : l ≠ []) {p : ℚ}
    (hp0 : 0 ≤ p) (hp1 : p ≤ 1) : quantile l p = percentileSpec l p := by
  have hn1 : 1 ≤ (sortList l).length := by
    rw [length_sortList]; exact List.length_pos.mpr hl
  have hn' : (1 : ℚ) ≤ (((sortList l).length : ℕ) : ℚ) := by exact_mod_cast hn1
  rw [quantile_eq l p, percentileSpec_eq l p]
  set s := sortList l with hs
  set n := s.length with hnn
  set h := p * ((n : ℚ) - 1) with hh
  have h0 : 0 ≤ h := mul_nonneg hp0 (by linarith)
  have hfl0 : 0 ≤ ⌊h⌋ := Int.floor_nonneg.mpr h0
  have hcast : (((⌊h⌋).toNat : ℕ) : ℚ) = (⌊h⌋ : ℚ) := toNat_floor_cast h0
  have hfi : ⌊((n : ℚ) - 1)⌋ = (n : ℤ) - 1 := by
    rw [show ((n : ℚ) - 1) = (((n : ℤ) - 1 : ℤ) : ℚ) by push_cast; ring]
    exact Int.floor_intCast _
  have hh1 : h ≤ (n : ℚ) - 1 := mul_le_of_le_one_left (by linarith) hp1
  rw [hcast]
  by_cases hfr : Int.fract h = 0
  · have hz : h - (⌊h⌋ : ℚ) = 0 := by
      have := hfr
      unfold Int.fract at this
      exact this
    rw [hz]
    ring
  · have hceil : ⌈h⌉ = ⌊h⌋ + 1 := by
      have hub := Int.ceil_le_floor_add_one h
      have hlb : ⌊h⌋ < ⌈h⌉ := by
        by_contra hcon
        push_neg at hcon
        have hle1 : h ≤ (⌊h⌋ : ℚ) := le_trans (Int.le_ceil h) (by exact_mod_cast hcon)
        have heq : h = (⌊h⌋ : ℚ) := le_antisymm hle1 (Int.floor_le h)
        exact hfr (by unfold Int.fract; linarith)
      omega
    have hne : h ≠ (n : ℚ) - 1 := by
      intro hcon
      apply hfr
      rw [hcon, show ((n : ℚ) - 1) = (((n : ℤ) - 1 : ℤ) : ℚ) by push_cast; ring]
      exact Int.fract_intCast _
    have hlt : h < (n : ℚ) - 1 := lt_of_le_of_ne hh1 hne
    have hidx : ⌊h⌋ < (n : ℤ) - 1 := by
      have hq : (⌊h⌋ : ℚ) < ((((n : ℤ) - 1 : ℤ)) : ℚ) := by
        have := Int.floor_le h
        push_cast
        linarith
      exact_mod_cast hq
    have hmin : min ((⌊h⌋).toNat + 1) (n - 1) = (⌊h⌋).toNat + 1 := by omega
    have htn : (⌈h⌉).toNat = (⌊h⌋).toNat + 1 := by omega
    rw [hmin, htn]

/-! ### Mode helper lemmas -/

lemma exists_maxCount (l : List ℚ) (hl : l ≠ []) :
    ∃ x ∈ l, l.count x = maxCount l := by
  cases hm : (l.map (fun x => l.count x)).max? with
  | none =>
    rw [List.max?_eq_none_iff, List.map_eq_nil_iff] at hm
    exact absurd hm hl
  | some mc =>
    have hmem : mc ∈ l.map (fun x => l.count x) :=
      List.max?_mem (fun a b => max_choice a b) hm
    obtain ⟨x, hx, hcx⟩ := List.mem_map.mp hmem
    refine ⟨x, hx, ?_⟩
    unfold maxCount
    rw [hm]
    simpa using hcx

lemma count_le_maxCount (l : List ℚ) {x : ℚ} (hx : x ∈ l) :
    l.count x ≤ maxCount l := by
  cases hm : (l.map (fun y => l.count y)).max? with
  | none =>
    rw [List.max?_eq_none_iff, List.map_eq_nil_iff] at hm
    rw [hm] at hx
    simp at hx
  | some mc =>
    have h := @List.max?_le_iff ℕ mc _ _ (fun _ _ _ => max_le_iff)
      (l.map (fun y => l.count y)) hm mc
    have hall := h.mp (le_refl mc)
    unfold maxCount
    rw [hm]
    simpa using hall _ (List.mem_map_of_mem _ hx)

lemma mem_modeSorted_iff {l : List ℚ} {x : ℚ} :
    x ∈ modeSorted l ↔ x ∈ l ∧ l.count x = maxCount l := by
  unfold modeSorted
  rw [mem_sortList, List.mem_filter, List.mem_dedup]
  simp

lemma modeSorted_ne_nil (l : List ℚ) (hl : l ≠ []) : modeSorted l ≠ [] := by
  obtain ⟨x, hx, hcx⟩ := exists_maxCount l hl
  exact List.ne_nil_of_mem (mem_modeSorted_iff.mpr ⟨hx, hcx⟩)

lemma head_le_of_sorted {a : ℚ} {t : List ℚ} (hs : List.Sorted (· ≤ ·) (a :: t)) :
    ∀ x ∈ a :: t, a ≤ x := by
  rw [List.sorted_cons] at hs
  intro x hx
  rcases List.mem_cons.mp hx with rfl | hx'
  · exact le_refl x
  · exact hs.1 x hx'

/-! ### Claim theorems -/

/-- Claim C9: for every non-empty cleaned numeric column, the reported
quantile statistics are monotone: `min ≤ q1 ≤ q2 ≤ q3 ≤ max`. -/
theorem reported_quantiles_monotone (l : List ℚ) (hl : l ≠ []) :
    (mkColStats l).min ≤ (mkColStats l).q1 ∧
    (mkColStats l).q1 ≤ (mkColStats l).q2 ∧
    (mkColStats l).q2 ≤ (mkColStats l).q3 ∧
    (mkColStats l).q3 ≤ (mkColStats l).max :=
  ⟨minOf_le_quantile l hl (by norm_num) (by norm_num),
   quantile_mono l hl (by norm_num) (by norm_num) (by norm_num),
   quantile_mono l hl (by norm_num) (by norm_num) (by norm_num),
   quantile_le_maxOf l hl (by norm_num) (by norm_num)⟩

/-- Witness for C9 at the concrete column `[3, 1, 2]`. -/
theorem reported_quantiles_monotone_witness :
    ([3, 1, 2] : List ℚ) ≠ [] ∧
    ((mkColStats [3, 1, 2]).min ≤ (mkColStats [3, 1, 2]).q1 ∧
     (mkColStats [3, 1, 2]).q1 ≤ (mkColStats [3, 1, 2]).q2 ∧
     (mkColStats [3, 1, 2]).q2 ≤ (mkColStats [3, 1, 2]).q3 ∧
     (mkColStats [3, 1, 2]).q3 ≤ (mkColStats [3, 1, 2]).max) :=
  ⟨by decide, reported_quantiles_monotone [3, 1, 2] (by decide)⟩

/-- Claim C3: for every non-empty cleaned numeric column, the reported
`q1`, `q2`, `q3`, `p10`, `p90` are the 25th/50th/75th/10th/90th percentiles
computed by linear interpolation between closest ranks, i.e. by the spec's
rule `percentileSpec` (value at rank `p*(n-1)`, interpolated between the two
bracketing sorted entries). -/
theorem reported_quantiles_linear (l : List ℚ) (hl : l ≠ []) :
    (mkColStats l).q1 = percentileSpec l (1/4) ∧
    (mkColStats l).q2 = percentileSpec l (1/2) ∧
    (mkColStats l).q3 = percentileSpec l (3/4) ∧
    (mkColStats l).p10 = percentileSpec l (1/10) ∧
    (mkColStats l).p90 = percentileSpec l (9/10) :=
  ⟨quantile_eq_percentileSpec l hl (by norm_num) (by norm_num),
   quantile_eq_percentileSpec l hl (by norm_num) (by norm_num),
   quantile_eq_percentileSpec l hl (by norm_num) (by norm_num),
   quantile_eq_percentileSpec l hl (by norm_num) (by norm_num),
   quantile_eq_percentileSpec l hl (by norm_num) (by norm_num)⟩

/-- Claim C2: for every numeric column with at least one non-null value, the
reported mode is a most-frequent value of the cleaned data and, under ties,
the smallest tied value; in particular the column `[1, 1, 2, 2]` yields
mode `1`. -/
theorem reported_mode_smallest_most_frequent :
    (∀ l : List ℚ, l ≠ [] → ∃ m, (mkColStats l).mode = some m ∧ m ∈ l ∧
      (∀ x ∈ l, l.count x ≤ l.count m) ∧
      (∀ x ∈ l, l.count x = l.count m → m ≤ x)) ∧
    (mkColStats [1, 1, 2, 2]).mode = some 1 := by
  constructor
  · intro l hl
    cases hms : modeSorted l with
    | nil => exact absurd hms (modeSorted_ne_nil l hl)
    | cons a t =>
      have hmode : (mkColStats l).mode = some a := by
        show mode? l = some a
        unfold mode?
        rw [hms]
      have hain : a ∈ modeSorted l := by
        rw [hms]; exact List.mem_cons_self a t
      obtain ⟨hal, hac⟩ := mem_modeSorted_iff.mp hain
      refine ⟨a, hmode, hal, ?_, ?_⟩
      · intro x hx
        rw [hac]
        exact count_le_maxCount l hx
      · intro x hx hcx
        have hxm : x ∈ modeSorted l :=
          mem_modeSorted_iff.mpr ⟨hx, by rw [hcx, hac]⟩
        rw [hms] at hxm
        exact head_le_of_sorted (hms ▸ sortList_sorted _) x hxm
  · decide

/-- Witness for C2: the general part applied at the concrete tied column
`[1, 1, 2, 2]`. -/
theorem reported_mode_smallest_most_frequent_witness :
    ([1, 1, 2, 2] : List ℚ) ≠ [] ∧
    (∃ m, (mkColStats [1, 1, 2, 2]).mode = some m ∧ m ∈ ([1, 1, 2, 2] : List ℚ) ∧
      (∀ x ∈ ([1, 1, 2, 2] : List ℚ),
        ([1, 1, 2, 2] : List ℚ).count x ≤ ([1, 1, 2, 2] : List ℚ).count m) ∧
      (∀ x ∈ ([1, 1, 2, 2] : List ℚ),
        ([1, 1, 2, 2] : List ℚ).count x = ([1, 1, 2, 2] : List ℚ).count m → m ≤ x)) :=
  ⟨by decide, reported_mode_smallest_most_frequent.1 [1, 1, 2, 2] (by decide)⟩

/-- Claim C10: for every column that is non-empty after dropping nulls, the
pandas mode series is non-empty, so the `None` fallback of the engine's mode
computation is unreachable and the reported mode is a value occurring in the
column. -/
theorem mode_fallback_unreachable (l : List ℚ) (hl : l ≠ []) :
    modeSorted l ≠ [] ∧ (mkColStats l).mode ≠ Option.none ∧
    ∃ m, (mkColStats l).mode = some m ∧ m ∈ l := by
  refine ⟨modeSorted_ne_nil l hl, ?_, ?_⟩
  · cases hms : modeSorted l with
    | nil => exact absurd hms (modeSorted_ne_nil l hl)
    | cons a t =>
      have hmode : (mkColStats l).mode = some a := by
        show mode? l = some a
        unfold mode?
        rw [hms]
      rw [hmode]
      simp
  · cases hms : modeSorted l with
    | nil => exact absurd hms (modeSorted_ne_nil l hl)
    | cons a t =>
      have hmode : (mkColStats l).mode = some a := by
        show mode? l = some a
        unfold mode?
        rw [hms]
      have hain : a ∈ modeSorted l := by
        rw [hms]; exact List.mem_cons_self a t
      exact ⟨a, hmode, (mem_modeSorted_iff.mp hain).1⟩

/-- Witness for C10 at the concrete column `[7]`. -/
theorem mode_fallback_unreachable_witness :
    ([7] : List ℚ) ≠ [] ∧
    (modeSorted [7] ≠ [] ∧ (mkColStats [7]).mode ≠ Option.none ∧
      ∃ m, (mkColStats [7]).mode = some m ∧ m ∈ ([7] : List ℚ)) :=
  ⟨by decide, mode_fallback_unreachable [7] (by decide)⟩

/-- Witness for C3 at the concrete column `[1, 2, 3]`. -/
theorem reported_quantiles_linear_witness :
    ([1, 2, 3] : List ℚ) ≠ [] ∧
    ((mkColStats [1, 2, 3]).q1 = percentileSpec [1, 2, 3] (1/4) ∧
     (mkColStats [1, 2, 3]).q2 = percentileSpec [1, 2, 3] (1/2) ∧
     (mkColStats [1, 2, 3]).q3 = percentileSpec [1, 2, 3] (3/4) ∧
     (mkColStats [1, 2, 3]).p10 = percentileSpec [1, 2, 3] (1/10) ∧
     (mkColStats [1, 2, 3]).p90 = percentileSpec [1, 2, 3] (9/10)) :=
  ⟨by decide, reported_quantiles_linear [1, 2, 3] (by decide)⟩

/-- Claim C6: for every non-empty cleaned numeric column, the reported
variance is the sample variance (denominator `n - 1`), and for a single-value
column both the variance and the standard deviation are reported as the
explicit undefined marker (pandas `NaN`, modelled `Option.none`) rather than
a fabricated number. -/
theorem variance_sample_and_single_value_undefined (l : List ℚ) (_hl : l ≠ []) :
    (1 < l.length →
      (mkColStats l).variance =
        some (((l.map (fun x => (x - mean l) ^ 2)).sum) / ((l.length : ℚ) - 1))) ∧
    (l.length = 1 →
      (mkColStats l).variance = Option.none ∧
      (mkColStats l).std_dev = Option.none) := by
  constructor
  · intro h1
    show var? l = _
    unfold var?
    rw [if_neg (by omega)]
  · intro h1
    constructor
    · show var? l = Option.none
      unfold var?
      rw [if_pos (by omega)]
    · show stdDev? l = Option.none
      unfold stdDev? var?
      rw [if_pos (by omega)]
      rfl

/-- Witness for C6 at the single-value column `[5]`. -/
theorem variance_sample_and_single_value_undefined_witness :
    ([5] : List ℚ) ≠ [] ∧
    ((mkColStats [5]).variance = Option.none ∧
      (mkColStats [5]).std_dev = Option.none) :=
  ⟨by decide, (variance_sample_and_single_value_undefined [5] (by decide)).2 rfl⟩

/-- Claim C8: for every pair of valid `HH:MM:SS` pickup and dropoff time
strings, the derived elapsed time is dropoff minus pickup in seconds, with
86400 seconds added when the dropoff clock time is earlier than the pickup;
in particular pickup `23:59:00` with dropoff `00:01:00` gives 120 seconds. -/
theorem elapsed_time_midnight_rollover :
    (∀ sp sd : String, ∀ p d : ℕ, parseTime sp = some p → parseTime sd = some d →
      calculate_elapsed_time sp sd =
        some (((d : ℤ) - (p : ℤ)) + (if d < p then 86400 else 0))) ∧
    calculate_elapsed_time "23:59:00" "00:01:00" = some 120 := by
  constructor
  · intro sp sd p d hp hd
    unfold calculate_elapsed_time
    rw [hp, hd]
    show some (if d < p then ((d : ℤ) + 86400) - (p : ℤ) else (d : ℤ) - (p : ℤ)) = _
    by_cases hdp : d < p
    · rw [if_pos hdp, if_pos hdp]
      exact congrArg some (by ring)
    · rw [if_neg hdp, if_neg hdp]
      exact congrArg some (by ring)
  · decide

/-- Witness for C8: the general part applied to the concrete pair
`10:00:00` / `10:00:30`. -/
theorem elapsed_time_midnight_rollover_witness :
    parseTime "10:00:00" = some 36000 ∧ parseTime "10:00:30" = some 36030 ∧
    calculate_elapsed_time "10:00:00" "10:00:30" =
      some ((((36030 : ℕ) : ℤ) - ((36000 : ℕ) : ℤ)) +
        (if (36030 : ℕ) < (36000 : ℕ) then 86400 else 0)) :=
  ⟨by decide, by decide,
    elapsed_time_midnight_rollover.1 "10:00:00" "10:00:30" 36000 36030
      (by decide) (by decide)⟩

/-- Claim C5: the skewness interpretation is the first-match-wins cascade
(`> 0.5`, `> 0.1`, `< -0.5`, `< -0.1`, else symmetric), and a value exactly
at a boundary falls through to the next test. -/
theorem skewness_interpretation_cascade :
    (∀ s : ℝ, skewInterp s =
      if s > 0.5 then "strong positive skew (right-tailed)"
      else if s > 0.1 then "moderate positive skew"
      else if s < -0.5 then "strong negative skew (left-tailed)"
      else if s < -0.1 then "moderate negative skew"
      else "approximately symmetric") ∧
    skewInterp 0.5 = "moderate positive skew" ∧
    skewInterp (-0.5) = "moderate negative skew" ∧
    skewInterp 0.1 = "approximately symmetric" ∧
    skewInterp (-0.1) = "approximately symmetric" := by
  refine ⟨fun s => rfl, ?_, ?_, ?_, ?_⟩
  · unfold skewInterp
    rw [if_neg (by norm_num), if_pos (by norm_num)]
  · unfold skewInterp
    rw [if_neg (by norm_num), if_neg (by norm_num), if_neg (by norm_num),
      if_pos (by norm_num)]
  · unfold skewInterp
    rw [if_neg (by norm_num), if_neg (by norm_num), if_neg (by norm_num),
      if_neg (by norm_num)]
  · unfold skewInterp
    rw [if_neg (by norm_num), if_neg (by norm_num), if_neg (by norm_num),
      if_neg (by norm_num)]

lemma int_log_eval {r : ℚ} {e : ℤ} (hr : 0 < r) (h1 : (10 : ℚ) ^ e ≤ r)
    (h2 : r < (10 : ℚ) ^ (e + 1)) : Int.log 10 r = e := by
  have hb : 1 < 10 := by norm_num
  have l1 : e ≤ Int.log 10 r := (Int.zpow_le_iff_le_log hb hr).mp h1
  have l2 : Int.log 10 r < e + 1 := (Int.lt_zpow_iff_log_lt hb hr).mp h2
  omega

lemma round_eval {r : ℚ} {k : ℤ} (h1 : (k : ℚ) ≤ r + 1/2) (h2 : r + 1/2 < k + 1) :
    round r = k := by
  rw [round_eq]
  exact Int.floor_eq_iff.mpr ⟨h1, h2⟩

lemma sciFormat4_of_one_over_200 : sciFormat4 ((1 : ℚ)/200) = "5.0000e-03" := by
  have habs : |(1 : ℚ)/200| = 1/200 := abs_of_pos (by norm_num)
  simp only [sciFormat4]
  rw [if_neg (by norm_num : ¬((1 : ℚ)/200 = 0)), habs]
  rw [show Int.log 10 ((1 : ℚ)/200) = (-3 : ℤ) from
    int_log_eval (by norm_num) (by norm_num) (by norm_num)]
  rw [show (10 : ℚ) ^ ((4 : ℤ) - (-3)) = 10000000 by norm_num]
  rw [show round ((1 : ℚ)/200 * 10000000) = (50000 : ℤ) from
    round_eval (by norm_num) (by norm_num)]
  rw [if_neg (by norm_num : ¬((1 : ℚ)/200 < 0))]
  decide

lemma sciFormat4_of_2000 : sciFormat4 (2000 : ℚ) = "2.0000e+03" := by
  have habs : |(2000 : ℚ)| = 2000 := abs_of_pos (by norm_num)
  simp only [sciFormat4]
  rw [if_neg (by norm_num : ¬((2000 : ℚ) = 0)), habs]
  rw [show Int.log 10 (2000 : ℚ) = (3 : ℤ) from
    int_log_eval (by norm_num) (by norm_num) (by norm_num)]
  rw [show (10 : ℚ) ^ ((4 : ℤ) - 3) = 10 by norm_num]
  rw [show round ((2000 : ℚ) * 10) = (20000 : ℤ) from
    round_eval (by norm_num) (by norm_num)]
  rw [if_neg (by norm_num : ¬((2000 : ℚ) < 0))]
  decide

lemma fixedFormat4_of_500_1234 : fixedFormat4 ((5001234 : ℚ)/10000) = "500.1234" := by
  simp only [fixedFormat4]
  rw [show round ((5001234 : ℚ)/10000 * 10000) = (5001234 : ℤ) from
    round_eval (by norm_num) (by norm_num)]
  decide

/-- Claim C4: a numeric cell is rendered in scientific notation with four
mantissa decimals when its absolute value is below `0.01` or above `1000`,
and as fixed-point with four decimals otherwise; in particular `0.005` and
`2000` render scientifically and `500.1234` renders as `500.1234`. -/
theorem cell_numeric_formatting :
    (∀ v : ℚ, formatValue v =
      if |v| < 1/100 ∨ 1000 < |v| then sciFormat4 v else fixedFormat4 v) ∧
    formatValue ((1 : ℚ)/200) = "5.0000e-03" ∧
    formatValue ((1 : ℚ)/200) = sciFormat4 ((1 : ℚ)/200) ∧
    formatValue (2000 : ℚ) = "2.0000e+03" ∧
    formatValue (2000 : ℚ) = sciFormat4 (2000 : ℚ) ∧
    formatValue ((5001234 : ℚ)/10000) = "500.1234" ∧
    formatValue ((5001234 : ℚ)/10000) = fixedFormat4 ((5001234 : ℚ)/10000) := by
  have hb005 : formatValue ((1 : ℚ)/200) = sciFormat4 ((1 : ℚ)/200) := by
    simp only [formatValue]
    rw [if_pos (Or.inl (by rw [abs_of_pos (by norm_num : (0:ℚ) < 1/200)]; norm_num))]
  have hb2000 : formatValue (2000 : ℚ) = sciFormat4 (2000 : ℚ) := by
    simp only [formatValue]
    rw [if_pos (Or.inr (by rw [abs_of_pos (by norm_num : (0:ℚ) < 2000)]; norm_num))]
  have hb500 : formatValue ((5001234 : ℚ)/10000) = fixedFormat4 ((5001234 : ℚ)/10000) := by
    simp only [formatValue]
    rw [if_neg (by rw [abs_of_pos (by norm_num : (0:ℚ) < 5001234/10000)]; norm_num)]
  exact ⟨fun _ => rfl,
    hb005.trans sciFormat4_of_one_over_200, hb005,
    hb2000.trans sciFormat4_of_2000, hb2000,
    hb500.trans fixedFormat4_of_500_1234, hb500⟩

/-- Counterexample to claim C1 as stated: over an empty table the engine does
return an empty report and the rendered document does state
"Number of numerical columns analyzed: 0", but the document is not free of
table rows — the sixteen statistic rows are still emitted, e.g. the `Mean`
row. -/
theorem empty_report_table_rows_counterexample :
    calculate_statistics [] = [] ∧
    "Number of numerical columns analyzed: 0\n\n" ∈
      generate_markdown_report [] "2024-01-01 00:00:00" ∧
    "| Mean | Average value |\n" ∈
      generate_markdown_report [] "2024-01-01 00:00:00" :=
  ⟨rfl, by decide, by decide⟩

/-- Claim C1 as amended: for an input table with zero rows or zero numeric
columns, `calculate_statistics` returns an empty report, and
`generate_markdown_report` applied to it produces a document stating
"Number of numerical columns analyzed: 0" whose statistics table carries no
value cells — the sixteen statistic rows each hold only the statistic label
and its description. -/
theorem empty_table_empty_report (t : Table)
    (ht : t = [] ∨ ∀ c ∈ t, c.2 = []) :
    calculate_statistics t = [] ∧
    ∀ now : String, generate_markdown_report (calculate_statistics t) now =
      ["# Descriptive Statistics Report\n\n",
       "*Generated on: " ++ now ++ "*\n\n",
       "## Summary\n\n",
       "This report contains descriptive statistics for the numerical columns in the dataset.\n\n",
       "Number of numerical columns analyzed: 0\n\n",
       "## Descriptive Statistics\n\n",
       "| Statistic |  | Description |\n",
       "|-----------||-------------|\n",
       "| Mean | Average value |\n",
       "| Median | Middle value when ordered |\n",
       "| Mode | Most frequent value |\n",
       "| Range | Difference between max and min |\n",
       "| Variance | Average squared deviation from the mean |\n",
       "| Std Dev | Square root of variance (spread around mean) |\n",
       "| Iqr | Middle 50% spread (Q3 - Q1) |\n",
       "| Min | Smallest value |\n",
       "| Max | Largest value |\n",
       "| Q1 | First quartile (25th percentile) |\n",
       "| Q2 | Second quartile (50th percentile, median) |\n",
       "| Q3 | Third quartile (75th percentile) |\n",
       "| P10 | 10th percentile |\n",
       "| P90 | 90th percentile |\n",
       "| Skewness | Measure of asymmetry (>0: right skew, <0: left skew) |\n",
       "| Kurtosis | Measure of 'tailedness' (>0: heavy tails, <0: light tails) |\n",
       "\n",
       "## Interpretations\n\n"] := by
  have hcs : calculate_statistics t = [] := by
    rcases ht with rfl | hall
    · rfl
    · unfold calculate_statistics
      rw [List.filterMap_eq_nil_iff]
      intro pr hpr
      have h2 : pr.2 = [] := hall pr hpr
      simp [h2]
  refine ⟨hcs, fun now => ?_⟩
  rw [hcs]
  rfl

/-- Witness for the amended C1 at the one-column zero-row table. -/
theorem empty_table_empty_report_witness :
    (([("col", ([] : List (Option ℚ)))] : Table) = [] ∨
      ∀ c ∈ ([("col", ([] : List (Option ℚ)))] : Table), c.2 = []) ∧
    calculate_statistics [("col", ([] : List (Option ℚ)))] = [] ∧
    generate_markdown_report
        (calculate_statistics [("col", ([] : List (Option ℚ)))]) "TS" =
      ["# Descriptive Statistics Report\n\n",
       "*Generated on: " ++ "TS" ++ "*\n\n",
       "## Summary\n\n",
       "This report contains descriptive statistics for the numerical columns in the dataset.\n\n",
       "Number of numerical columns analyzed: 0\n\n",
       "## Descriptive Statistics\n\n",
       "| Statistic |  | Description |\n",
       "|-----------||-------------|\n",
       "| Mean | Average value |\n",
       "| Median | Middle value when ordered |\n",
       "| Mode | Most frequent value |\n",
       "| Range | Difference between max and min |\n",
       "| Variance | Average squared deviation from the mean |\n",
       "| Std Dev | Square root of variance (spread around mean) |\n",
       "| Iqr | Middle 50% spread (Q3 - Q1) |\n",
       "| Min | Smallest value |\n",
       "| Max | Largest value |\n",
       "| Q1 | First quartile (25th percentile) |\n",
       "| Q2 | Second quartile (50th percentile, median) |\n",
       "| Q3 | Third quartile (75th percentile) |\n",
       "| P10 | 10th percentile |\n",
       "| P90 | 90th percentile |\n",
       "| Skewness | Measure of asymmetry (>0: right skew, <0: left skew) |\n",
       "| Kurtosis | Measure of 'tailedness' (>0: heavy tails, <0: light tails) |\n",
       "\n",
       "## Interpretations\n\n"] :=
  ⟨Or.inr (by decide),
   (empty_table_empty_report [("col", [])] (Or.inr (by decide))).1,
   (empty_table_empty_report [("col", [])] (Or.inr (by decide))).2 "TS"⟩

lemma cast_dev_pow_sum (l : List ℚ) (mu : ℚ) (k : ℕ) :
    (((l.map (fun x => (x - mu) ^ k)).sum : ℚ) : ℝ) =
      (l.map (fun x : ℚ => (((x : ℚ) : ℝ) - ((mu : ℚ) : ℝ)) ^ k)).sum := by
  induction l with
  | nil => simp
  | cons a t ih =>
    simp only [List.map_cons, List.sum_cons]
    push_cast
    rw [← ih]
    push_cast
    ring

lemma m2_nonneg (l : List ℚ) : (0 : ℚ) ≤ m2 l := by
  unfold m2
  apply div_nonneg
  · apply List.sum_nonneg
    intro x hx
    obtain ⟨y, hy, rfl⟩ := List.mem_map.mp hx
    positivity
  · positivity

theorem skewness_third_standardized_moment (l : List ℚ) (_hl : l ≠ []) :
    (mkColStats l).skewness =
      ((l.map (fun x => (((x : ℚ) : ℝ) - ((mean l : ℚ) : ℝ)) /
          Real.sqrt ((m2 l : ℚ) : ℝ))).map (fun y => y ^ 3)).sum / (l.length : ℝ) := by
  show skew l = _
  unfold skew
  rw [List.map_map]
  rcases eq_or_lt_of_le (m2_nonneg l) with h0 | hpos
  · rw [← h0]
    rw [show ((0 : ℚ) : ℝ) = (0 : ℝ) from Rat.cast_zero]
    rw [Real.zero_rpow (by norm_num), div_zero, Real.sqrt_zero]
    symm
    have hz : (l.map ((fun y : ℝ => y ^ 3) ∘
        (fun x : ℚ => (((x : ℚ) : ℝ) - ((mean l : ℚ) : ℝ)) / (0 : ℝ)))) =
        l.map (fun _ => (0 : ℝ)) := by
      apply List.map_congr_left
      intro x hx
      simp
    rw [hz]
    simp
  · have hM2pos : (0 : ℝ) < ((m2 l : ℚ) : ℝ) := by exact_mod_cast hpos
    have hsq3 : Real.sqrt ((m2 l : ℚ) : ℝ) ^ (3 : ℕ) = ((m2 l : ℚ) : ℝ) ^ (1.5 : ℝ) := by
      rw [Real.sqrt_eq_rpow, ← Real.rpow_natCast ((((m2 l : ℚ) : ℝ)) ^ ((1 : ℝ)/2)) 3,
        ← Real.rpow_mul (le_of_lt hM2pos)]
      norm_num
    have hterm : (l.map ((fun y : ℝ => y ^ 3) ∘
        (fun x : ℚ => (((x : ℚ) : ℝ) - ((mean l : ℚ) : ℝ)) / Real.sqrt ((m2 l : ℚ) : ℝ)))) =
        l.map (fun x : ℚ => ((((x : ℚ) : ℝ) - ((mean l : ℚ) : ℝ)) ^ 3) *
          (Real.sqrt ((m2 l : ℚ) : ℝ) ^ (3 : ℕ))⁻¹) := by
      apply List.map_congr_left
      intro x hx
      simp only [Function.comp_apply]
      rw [div_eq_mul_inv, mul_pow, inv_pow]
    rw [hterm, List.sum_map_mul_right]
    have hm3 : ((m3 l : ℚ) : ℝ) =
        (l.map (fun x : ℚ => (((x : ℚ) : ℝ) - ((mean l : ℚ) : ℝ)) ^ 3)).sum / (l.length : ℝ) := by
      unfold m3
      rw [Rat.cast_div, cast_dev_pow_sum l (mean l) 3, Rat.cast_natCast]
    rw [hm3, ← hsq3]
    rw [← div_eq_mul_inv, div_div, div_div, mul_comm ((l.length : ℕ) : ℝ)]


/-- Witness for C7 at the concrete column `[0, 2]`. -/
theorem skewness_third_standardized_moment_witness :
    ([0, 2] : List ℚ) ≠ [] ∧
    (mkColStats [0, 2]).skewness =
      ((([0, 2] : List ℚ).map (fun x => (((x : ℚ) : ℝ) - ((mean [0, 2] : ℚ) : ℝ)) /
          Real.sqrt ((m2 [0, 2] : ℚ) : ℝ))).map (fun y => y ^ 3)).sum /
        (([0, 2] : List ℚ).length : ℝ) :=
  ⟨by decide, skewness_third_standardized_moment [0, 2] (by decide)⟩

end TaxiProject
